import Mathlib

/-!
Shallow embedding of the block-authoring and transaction-admission core of
the `loxadim/substrate` node: the BFT proposer (`node/consensus/src/lib.rs`)
and the transaction pool (`node/transaction-pool/src/lib.rs`).

Machine integers are modelled as `Nat`, with explicit `% 2^64` where the
source truncates to 64 bits (`low_u64`) and explicit saturation where the
source uses `saturating_add`.  Fallible operations return `Option`/`Except`.
External collaborators that the two source files only call (the runtime
codec, the signature checker, the offline tracker's report list, the block
builder's push result) enter as explicit parameters, so every theorem is
universally quantified over their behaviour.
-/

namespace Substrate

/-- Account identifiers (32-byte values in the source) are abstracted to `Nat`. -/
abbrev AccountId := Nat

/-- 32-byte hashes are modelled as byte lists. -/
abbrev Hash := List Nat

/-- `MAX_TRANSACTIONS_SIZE` from `node/consensus/src/lib.rs` line 77:
the aggregate size limit for pool transactions in one proposed block. -/
def MAX_TRANSACTIONS_SIZE : Nat := 4 * 1024 * 1024

/-- `MAX_TRANSACTION_SIZE` from `node/transaction-pool/src/lib.rs` line 56:
the maximal size of a single encoded extrinsic. -/
def MAX_TRANSACTION_SIZE : Nat := 4 * 1024 * 1024

/-- One more than the largest `u64` value. -/
def U64_LIMIT : Nat := 2 ^ 64

/-- The largest `u64` value, `Bounded::max_value()` for `u64` in the source. -/
def U64_MAX : Nat := 2 ^ 64 - 1

/-- `U256::low_u64`: keep the low 64 bits of a 256-bit value. -/
def low_u64 (x : Nat) : Nat := x % U64_LIMIT

/-- `U256::from_big_endian`: read a byte string as a big-endian unsigned
integer (each byte taken mod 256, as bytes are). -/
def fromBigEndian (bytes : List Nat) : Nat :=
  bytes.foldl (fun acc b => acc * 256 + b % 256) 0

/-- `Proposer::primary_index` (`node/consensus/src/lib.rs` lines 290-297):
`offset = U256::from_big_endian(random_seed) % len;`
`offset = offset.low_u64() as usize + round_number; offset % len`.
The `usize` addition is modelled as exact `Nat` addition (overflow would
panic under checked arithmetic rather than produce a value). -/
def primary_index (random_seed : List Nat) (round_number : Nat) (len : Nat) : Nat :=
  let offset := fromBigEndian random_seed % len
  let offset := low_u64 offset + round_number
  offset % len

/-- `%` on `U256` panics when the divisor is zero; the checked variant
returns `none` exactly there. -/
def checked_mod (a b : Nat) : Option Nat :=
  if b = 0 then none else some (a % b)

/-- `primary_index` with the two `U256`/`usize` modulo operations made
explicit as fallible steps: `none` models the division-by-zero panic that a
zero `len` causes in the source. -/
def primary_index_checked (random_seed : List Nat) (round_number : Nat) (len : Nat) :
    Option Nat :=
  (checked_mod (fromBigEndian random_seed) len).bind fun offset =>
    checked_mod (low_u64 offset + round_number) len

/-- `Proposer::round_proposer` (`node/consensus/src/lib.rs` lines 457-463):
`authorities[primary_index(round_number, authorities.len())]`.  The panicking
index is modelled with `List.get?`. -/
def round_proposer {α : Type} (random_seed : List Nat) (round_number : Nat)
    (authorities : List α) : Option α :=
  authorities.get? (primary_index random_seed round_number authorities.length)

/-- A pending pool transaction as seen by `Proposer::propose`: its verified
record's encoded size and hash. -/
structure PendingTx where
  encoded_size : Nat
  hash : Nat
deriving DecidableEq

/-- The local state of the transaction-inclusion loop in `Proposer::propose`
(`node/consensus/src/lib.rs` lines 337-360): `pending_size` is the running
byte count, `included` the successfully pushed transactions in order, and
`unqueue_invalid` the hashes of transactions whose push failed. -/
structure ProposeState where
  pending_size : Nat
  included : List PendingTx
  unqueue_invalid : List Nat
deriving DecidableEq

/-- The `for pending in pending_iterator` loop of `Proposer::propose`
(lines 341-353).  `pushOk` abstracts the result of
`block_builder.push_extrinsic` (the builder lives outside these crates):
`break` on `pending_size + encoded_size ≥ MAX_TRANSACTIONS_SIZE`, count the
size only on a successful push, otherwise record the hash as invalid. -/
def includeLoop (pushOk : PendingTx → Bool) :
    List PendingTx → ProposeState → ProposeState
  | [], st => st
  | p :: rest, st =>
    if st.pending_size + p.encoded_size ≥ MAX_TRANSACTIONS_SIZE then st
    else if pushOk p then
      includeLoop pushOk rest
        { pending_size := st.pending_size + p.encoded_size,
          included := st.included ++ [p],
          unqueue_invalid := st.unqueue_invalid }
    else
      includeLoop pushOk rest
        { st with unqueue_invalid := st.unqueue_invalid ++ [p.hash] }

/-- The transaction-selection phase of `Proposer::propose`, starting from
`pending_size = 0` and no invalid hashes. -/
def propose_transactions (pushOk : PendingTx → Bool) (pending : List PendingTx) :
    ProposeState :=
  includeLoop pushOk pending ⟨0, [], []⟩

/-- Nanoseconds per second, the precision of `std::time::Duration`. -/
def NANOS_PER_SEC : Nat := 1000000000

/-- `MAX_VOTE_OFFLINE_SECONDS = Duration::from_secs(60)`
(`node/consensus/src/lib.rs` line 311), expressed in nanoseconds. -/
def MAX_VOTE_OFFLINE_NANOS : Nat := 60 * NANOS_PER_SEC

/-- `InherentData` as assembled by `Proposer::propose` (lines 330-333). -/
structure InherentData where
  timestamp : Nat
  offline_indices : List Nat
deriving DecidableEq

/-- The inherent-data computation of `Proposer::propose`
(`node/consensus/src/lib.rs` lines 313-333):
`timestamp = max(minimum_timestamp, current_timestamp())`, and
`offline_indices = [] if elapsed_since_start > 60s else offline.reports(validators)`.
`reports` abstracts the offline tracker's read (`offline_tracker` module is
outside this crate's file); `elapsed_ns` is `start.elapsed()` in nanoseconds. -/
def propose_inherent_data (minimum_timestamp now_ts : Nat) (elapsed_ns : Nat)
    (reports : List AccountId → List Nat) (validators : List AccountId) :
    InherentData :=
  let timestamp := max minimum_timestamp now_ts
  let offline_indices :=
    if elapsed_ns > MAX_VOTE_OFFLINE_NANOS then [] else reports validators
  { timestamp := timestamp, offline_indices := offline_indices }

/-- The proposal view that `evaluation::evaluate_initial` returns on success:
the accessors `timestamp()` and `noted_offline()` used by `evaluate`. -/
structure Proposal where
  timestamp : Nat
  noted_offline : List Nat
deriving DecidableEq

/-- How the future returned by `Proposer::evaluate` behaves: it resolves to
a vote after a delay of `delay` seconds, resolves to an error immediately,
or never resolves (abstention). -/
inductive EvalOutcome where
  | resolves (delay : Nat) (vote : Bool)
  | error
  | never
deriving DecidableEq

/-- `Proposer::evaluate` (`node/consensus/src/lib.rs` lines 387-455) as a
function from the results of its collaborators to the behaviour of the
returned future.  `structural` is the result of `evaluation::evaluate_initial`
(`none` = failure), `consistent` the result of
`offline.check_consistency(validators, proposal.noted_offline())`, and
`chain` the result of `client.evaluate_block`.  Structural failure resolves
`false` at once; the timestamp delay is
`max(minimum_timestamp, proposal.timestamp()) - now_ts` when positive;
inconsistency returns `futures::empty()` (never resolves); a chain error
resolves as an error; `Ok(true)` waits out the delay before resolving `true`;
`Ok(false)` resolves `false` with no delay. -/
def evaluate (structural : Option Proposal) (now_ts minimum_timestamp : Nat)
    (consistent : Bool) (chain : Except Unit Bool) : EvalOutcome :=
  match structural with
  | none => .resolves 0 false
  | some proposal =>
    let proposed_timestamp := max minimum_timestamp proposal.timestamp
    let timestamp_delay : Option Nat :=
      if proposed_timestamp > now_ts then some (proposed_timestamp - now_ts)
      else none
    if consistent = false then .never
    else
      match chain with
      | .error _ => .error
      | .ok good =>
        if good then .resolves (timestamp_delay.getD 0) true
        else .resolves 0 false

/-- `Readiness` from the extrinsic-pool interface. -/
inductive Readiness where
  | ready
  | future
  | stale
deriving DecidableEq

/-- A verified transaction (`node/transaction-pool/src/lib.rs` lines 82-91). -/
structure VerifiedTransaction where
  hash : Hash
  sender : AccountId
  index : Nat
  encoded_size : Nat
deriving DecidableEq

/-- The per-call nonce cache `known_nonces : sender → u64`, as an
association list. -/
abbrev KnownNonces := List (AccountId × Nat)

/-- Look a sender up in the nonce cache. -/
def nonce_lookup : KnownNonces → AccountId → Option Nat
  | [], _ => none
  | (k, v) :: rest, a => if k = a then some v else nonce_lookup rest a

/-- Insert or overwrite a sender's cached nonce. -/
def nonce_insert : KnownNonces → AccountId → Nat → KnownNonces
  | [], a, v => [(a, v)]
  | (k, w) :: rest, a, v =>
    if k = a then (a, v) :: rest else (k, w) :: nonce_insert rest a v

/-- `u64::saturating_add` on the `Nat` model. -/
def saturating_add_u64 (a b : Nat) : Nat := min (a + b) U64_MAX

/-- The value `known_nonces.entry(sender).or_insert_with(|| api.index(at, sender).ok().unwrap_or_else(Bounded::max_value))`
reads (`node/transaction-pool/src/lib.rs` lines 199-200): the cached nonce
when present, otherwise the chain's account nonce, otherwise `u64::MAX` when
the API call errors. -/
def expected_nonce (api_index : AccountId → Except Unit Nat) (known : KnownNonces)
    (sender : AccountId) : Nat :=
  match nonce_lookup known sender with
  | some n => n
  | none =>
    match api_index sender with
    | .ok n => n
    | .error _ => U64_MAX

/-- `ChainApi::is_ready` (`node/transaction-pool/src/lib.rs` lines 192-220):
classify `xt.verified.index` against the cached expected nonce
(`Greater → Future`, `Equal → Ready`, `Less → Stale`) and store the
expected nonce incremented by 1 with saturation back into the cache. -/
def is_ready (api_index : AccountId → Except Unit Nat) (known : KnownNonces)
    (xt : VerifiedTransaction) : Readiness × KnownNonces :=
  let next_index := expected_nonce api_index known xt.sender
  let result :=
    if xt.index > next_index then Readiness.future
    else if xt.index = next_index then Readiness.ready
    else Readiness.stale
  (result, nonce_insert known xt.sender (saturating_add_u64 next_index 1))

/-- `RawAddress` from the runtime: either a direct account id or an index. -/
inductive RawAddress where
  | id (a : AccountId)
  | index (i : Nat)
deriving DecidableEq

/-- `UncheckedExtrinsic` from the runtime: an optional `(address, signature)`
pair, a sender nonce, and an opaque call (abstracted to `Nat`). -/
structure UncheckedExtrinsic where
  signature : Option (RawAddress × Nat)
  index : Nat
  function : Nat
deriving DecidableEq

/-- `UncheckedExtrinsic::is_signed`. -/
def UncheckedExtrinsic.is_signed (uxt : UncheckedExtrinsic) : Bool :=
  uxt.signature.isSome

/-- The checked form of an extrinsic: resolved sender, nonce, call. -/
structure CheckedExtrinsic where
  signed : Option AccountId
  index : Nat
  function : Nat
deriving DecidableEq

/-- Modelled from the spec: `UncheckedExtrinsic::check_with` lives in the
`node_runtime` crate, which is not among the source files; per the spec's
verification algorithm it runs signature check and address resolution,
resolving the sender address with the supplied lookup.  An unsigned
extrinsic checks to an unsigned `CheckedExtrinsic`; a signed one first
resolves its address (propagating the lookup's error), then verifies the
signature (`sigOk` abstracts the cryptographic check). -/
def check_with (sigOk : UncheckedExtrinsic → AccountId → Bool)
    (lookup : RawAddress → Except String AccountId) (uxt : UncheckedExtrinsic) :
    Except String CheckedExtrinsic :=
  match uxt.signature with
  | none => .ok ⟨none, uxt.index, uxt.function⟩
  | some (addr, _sig) =>
    match lookup addr with
    | .error e => .error e
    | .ok sender =>
      if sigOk uxt sender then .ok ⟨some sender, uxt.index, uxt.function⟩
      else .error ("bad signature")

/-- The address-resolution closure passed to `check_with` by
`ChainApi::verify_transaction` (`node/transaction-pool/src/lib.rs` lines
165-170): `RawAddress::Id` is taken as-is, `RawAddress::Index` is rejected. -/
def address_lookup : RawAddress → Except String AccountId
  | .id a => .ok a
  | .index _ => .error ("Index based addresses are not supported")

/-- The error taxonomy of `verify_transaction` (`error.rs` kinds as raised in
`node/transaction-pool/src/lib.rs` lines 152-186).  `other` carries the
message of an error propagated from `check_with`; the string
"Only signed extrinsics are allowed at this point" models the `expect` panic
on an unsigned checked extrinsic, unreachable after the `is_signed` test. -/
inductive VerifyError where
  | invalidExtrinsicFormat
  | isInherent (uxt : UncheckedExtrinsic)
  | tooLarge (actual limit : Nat)
  | other (msg : String)
deriving DecidableEq

/-- `ChainApi::verify_transaction` (`node/transaction-pool/src/lib.rs` lines
152-186).  `decode` abstracts the runtime codec (`UncheckedExtrinsic::decode`),
`blake2_256` the hash function, `sigOk` the signature check inside
`check_with`.  Steps, in source order: decode or fail with
`InvalidExtrinsicFormat`; bail `IsInherent` if unsigned; compute
`(encoded_size, hash)`; bail `TooLarge` if `encoded_size > MAX_TRANSACTION_SIZE`;
run `check_with` with the `RawAddress` closure; build the
`VerifiedTransaction`. -/
def verify_transaction (decode : List Nat → Option UncheckedExtrinsic)
    (blake2_256 : List Nat → Hash) (sigOk : UncheckedExtrinsic → AccountId → Bool)
    (encoded : List Nat) : Except VerifyError VerifiedTransaction :=
  match decode encoded with
  | none => .error .invalidExtrinsicFormat
  | some uxt =>
    if uxt.is_signed = false then .error (.isInherent uxt)
    else
      let encoded_size := encoded.length
      let hash := blake2_256 encoded
      if encoded_size > MAX_TRANSACTION_SIZE then
        .error (.tooLarge encoded_size MAX_TRANSACTION_SIZE)
      else
        match check_with sigOk address_lookup uxt with
        | .error e => .error (.other e)
        | .ok checked =>
          match checked.signed with
          | none => .error (.other ("Only signed extrinsics are allowed at this point"))
          | some sender =>
            .ok ⟨hash, sender, checked.index, encoded_size⟩

/-! ## Helper lemmas -/

/-- Modular shift of a successor: for a modulus above one, adding one before
or after reducing agrees. -/
theorem mod_succ_shift (x n : Nat) (h : 1 < n) : (x + 1) % n = (x % n + 1) % n := by
  conv_lhs => rw [Nat.add_mod]
  rw [Nat.mod_eq_of_lt h]

/-- Looking up the key just inserted into the nonce cache yields the
inserted value. -/
theorem nonce_lookup_insert (m : KnownNonces) (a : AccountId) (v : Nat) :
    nonce_lookup (nonce_insert m a v) a = some v := by
  induction m with
  | nil => simp [nonce_insert, nonce_lookup]
  | cons kv rest ih =>
    obtain ⟨k, w⟩ := kv
    by_cases h : k = a
    · simp [nonce_insert, nonce_lookup, h]
    · simp [nonce_insert, nonce_lookup, h, ih]

/-- The inclusion loop of `propose` keeps `pending_size` equal to the sum of
the included transactions' encoded sizes and strictly below
`MAX_TRANSACTIONS_SIZE`, provided it starts that way. -/
theorem includeLoop_size_invariant (pushOk : PendingTx → Bool) (l : List PendingTx)
    (st : ProposeState)
    (hsum : st.pending_size = (st.included.map PendingTx.encoded_size).sum)
    (hlt : st.pending_size < MAX_TRANSACTIONS_SIZE) :
    (includeLoop pushOk l st).pending_size =
      ((includeLoop pushOk l st).included.map PendingTx.encoded_size).sum ∧
    (includeLoop pushOk l st).pending_size < MAX_TRANSACTIONS_SIZE := by
  induction l generalizing st with
  | nil => exact ⟨hsum, hlt⟩
  | cons p rest ih =>
    by_cases hbreak : st.pending_size + p.encoded_size ≥ MAX_TRANSACTIONS_SIZE
    · simp only [includeLoop, if_pos hbreak]
      exact ⟨hsum, hlt⟩
    · by_cases hpush : pushOk p
      · simp only [includeLoop, if_neg hbreak, if_pos hpush]
        apply ih
        · simp [hsum]
        · show st.pending_size + p.encoded_size < MAX_TRANSACTIONS_SIZE
          omega
      · simp only [includeLoop, if_neg hbreak, if_neg hpush]
        exact ih _ hsum hlt

/-! ## Claim theorems -/

/-- Claim C1: for every 32-byte `random_seed`, every non-empty `authorities`
list and every round `r`, `round_proposer` returns
`authorities[((BigEndian(random_seed) mod len).low_u64 + r) mod len]` (the
lookup succeeds), and, being a pure function of its inputs, two invocations
with the same inputs agree. -/
theorem round_proposer_deterministic_formula {α : Type} (random_seed : List Nat)
    (authorities : List α) (r : Nat) (hseed : random_seed.length = 32)
    (hne : authorities ≠ []) :
    round_proposer random_seed r authorities =
      authorities.get? ((low_u64 (fromBigEndian random_seed % authorities.length) + r) %
        authorities.length) ∧
    (round_proposer random_seed r authorities).isSome = true ∧
    round_proposer random_seed r authorities = round_proposer random_seed r authorities := by
  refine ⟨rfl, ?_, rfl⟩
  have hlen : 0 < authorities.length := List.length_pos.mpr hne
  have hidx : primary_index random_seed r authorities.length < authorities.length :=
    Nat.mod_lt _ hlen
  simp only [round_proposer, Option.isSome_iff_ne_none, ne_eq, List.get?_eq_none]
  omega

/-- Witness for C1 at the all-zero 32-byte seed and a singleton authority
list. -/
theorem round_proposer_deterministic_formula_witness :
    round_proposer (List.replicate 32 0) 0 ([5] : List Nat) = some 5 := by
  have h := (round_proposer_deterministic_formula (List.replicate 32 0) ([5] : List Nat) 0
      (by decide) (by decide)).1
  simpa using h

/-- Claim C9: for a non-empty authorities list the index computed by
`primary_index` is strictly below the list length, so the indexing in
`round_proposer` (and `on_round_end`) is in bounds; with an empty list the
computation takes a 256-bit value modulo zero, which has no defined value
(the checked model returns `none`, where the source panics). -/
theorem primary_index_safety {α : Type} (random_seed : List Nat) (r : Nat)
    (authorities : List α) :
    (authorities ≠ [] →
      primary_index random_seed r authorities.length < authorities.length ∧
      primary_index_checked random_seed r authorities.length =
        some (primary_index random_seed r authorities.length) ∧
      (round_proposer random_seed r authorities).isSome = true) ∧
    (authorities = [] →
      primary_index_checked random_seed r authorities.length = none) := by
  constructor
  · intro hne
    have hlen : 0 < authorities.length := List.length_pos.mpr hne
    have hlen0 : authorities.length ≠ 0 := by omega
    have hidx : primary_index random_seed r authorities.length < authorities.length :=
      Nat.mod_lt _ hlen
    refine ⟨hidx, ?_, ?_⟩
    · simp [primary_index_checked, checked_mod, hlen0, primary_index]
    · simp only [round_proposer, Option.isSome_iff_ne_none, ne_eq, List.get?_eq_none]
      omega
  · intro he
    subst he
    simp [primary_index_checked, checked_mod]

/-- Witness for C9 at a singleton authority list. -/
theorem primary_index_safety_witness :
    primary_index [] 0 ([3] : List Nat).length < ([3] : List Nat).length ∧
    primary_index_checked [] 0 ([] : List Nat).length = none := by
  constructor
  · exact ((primary_index_safety [] 0 ([3] : List Nat)).1 (by decide)).1
  · exact (primary_index_safety [] 0 ([] : List Nat)).2 rfl

/-- Counterexample to C8 as stated: with the duplicate authorities list
`[0, 0]` (which has more than one element) the proposer of round 1 equals
the proposer of round 0, because the two rotated indices select equal
entries. -/
theorem round_proposer_rotation_counterexample :
    ([0, 0] : List Nat).length > 1 ∧
    round_proposer (List.replicate 32 0) 1 ([0, 0] : List Nat) =
      round_proposer (List.replicate 32 0) 0 ([0, 0] : List Nat) := by
  exact ⟨by decide, rfl⟩

/-- Claim C8 (amended): for every seed and every authorities list with more
than one element, the selected index advances exactly one position per
round — at round `r ≥ 1` it is the index at round `r-1` plus one modulo the
length — and the selected authority at round `r` differs from the one at
round `r-1` provided the authorities list has no duplicate entries. -/
theorem round_proposer_rotation {α : Type} (random_seed : List Nat)
    (authorities : List α) (r : Nat) (hr : 1 ≤ r) (hlen : 1 < authorities.length) :
    primary_index random_seed r authorities.length =
      (primary_index random_seed (r - 1) authorities.length + 1) % authorities.length ∧
    (authorities.Nodup →
      round_proposer random_seed r authorities ≠
        round_proposer random_seed (r - 1) authorities) := by
  have hlen0 : 0 < authorities.length := by omega
  have key : primary_index random_seed r authorities.length =
      (primary_index random_seed (r - 1) authorities.length + 1) % authorities.length := by
    have e : primary_index random_seed (r - 1) authorities.length =
        (low_u64 (fromBigEndian random_seed % authorities.length) + (r - 1)) %
          authorities.length := rfl
    rw [e, ← mod_succ_shift _ _ hlen]
    show (low_u64 (fromBigEndian random_seed % authorities.length) + r) %
        authorities.length = _
    congr 1
    omega
  refine ⟨key, ?_⟩
  intro hnd hEq
  have hi : primary_index random_seed r authorities.length < authorities.length :=
    Nat.mod_lt _ hlen0
  have hj : primary_index random_seed (r - 1) authorities.length < authorities.length :=
    Nat.mod_lt _ hlen0
  have hij : primary_index random_seed r authorities.length =
      primary_index random_seed (r - 1) authorities.length :=
    List.get?_inj hi hnd hEq
  rw [key] at hij
  rcases Nat.lt_or_ge (primary_index random_seed (r - 1) authorities.length + 1)
      authorities.length with hcase | hcase
  · rw [Nat.mod_eq_of_lt hcase] at hij
    omega
  · have hsucc : primary_index random_seed (r - 1) authorities.length + 1 =
        authorities.length := by omega
    rw [hsucc, Nat.mod_self] at hij
    omega

/-- Witness for C8 (amended) at seed `[1]`, distinct authorities `[10, 20]`
and round 1. -/
theorem round_proposer_rotation_witness :
    primary_index [1] 1 ([10, 20] : List Nat).length =
      (primary_index [1] 0 ([10, 20] : List Nat).length + 1) %
        ([10, 20] : List Nat).length ∧
    round_proposer [1] 1 ([10, 20] : List Nat) ≠ round_proposer [1] 0 [10, 20] := by
  have h := round_proposer_rotation [1] ([10, 20] : List Nat) 1 (by decide) (by decide)
  exact ⟨h.1, h.2 (by decide)⟩

/-- Claim C3: in every block produced by `propose`, the final byte count of
the inclusion loop equals the sum of the encoded sizes of the successfully
pushed pool transactions, and that sum is strictly below
`MAX_TRANSACTIONS_SIZE` (4 MiB). -/
theorem propose_block_size_bound (pushOk : PendingTx → Bool)
    (pending : List PendingTx) :
    (propose_transactions pushOk pending).pending_size =
      ((propose_transactions pushOk pending).included.map PendingTx.encoded_size).sum ∧
    ((propose_transactions pushOk pending).included.map PendingTx.encoded_size).sum <
      MAX_TRANSACTIONS_SIZE := by
  have h := includeLoop_size_invariant pushOk pending ⟨0, [], []⟩ (by simp) (by decide)
  have h2 := h.2
  rw [h.1] at h2
  exact ⟨h.1, h2⟩

/-- Claim C2: on a structurally valid candidate a `true` vote resolves after
`max(minimum_timestamp, candidate.timestamp) - now_ts` seconds when that
proposed timestamp is in the future and immediately otherwise, while every
`false` resolution — which can only stem from a structural-evaluation
failure or from chain evaluation returning `Ok(false)` — carries no delay. -/
theorem evaluate_timestamp_delay (structural : Option Proposal)
    (now_ts minimum_timestamp : Nat) (consistent : Bool) (chain : Except Unit Bool) :
    (∀ p, structural = some p → consistent = true → chain = Except.ok true →
      evaluate structural now_ts minimum_timestamp consistent chain =
        EvalOutcome.resolves
          (if max minimum_timestamp p.timestamp > now_ts then
            max minimum_timestamp p.timestamp - now_ts
          else 0) true) ∧
    (∀ d, evaluate structural now_ts minimum_timestamp consistent chain =
        EvalOutcome.resolves d false → d = 0) ∧
    (∀ d, evaluate structural now_ts minimum_timestamp consistent chain =
        EvalOutcome.resolves d false →
      structural = none ∨ chain = Except.ok false) := by
  refine ⟨?_, ?_, ?_⟩
  · rintro p rfl rfl rfl
    by_cases h : max minimum_timestamp p.timestamp > now_ts <;> simp [evaluate, h]
  · intro d h
    cases structural with
    | none => simp [evaluate] at h; omega
    | some p =>
      cases consistent with
      | false => simp [evaluate] at h
      | true =>
        cases chain with
        | error e => simp [evaluate] at h
        | ok good =>
          cases good with
          | false => simp [evaluate] at h; omega
          | true => simp [evaluate] at h
  · intro d h
    cases structural with
    | none => exact Or.inl rfl
    | some p =>
      cases consistent with
      | false => simp [evaluate] at h
      | true =>
        cases chain with
        | error e => simp [evaluate] at h
        | ok good =>
          cases good with
          | false => exact Or.inr rfl
          | true => simp [evaluate] at h

/-- Witness for C2: a candidate whose proposed timestamp `max 7 10 = 10`
lies 7 seconds past `now_ts = 3` resolves `true` after 7 seconds. -/
theorem evaluate_timestamp_delay_witness :
    evaluate (some ⟨10, []⟩) 3 7 true (Except.ok true) =
      EvalOutcome.resolves 7 true := by
  have h := (evaluate_timestamp_delay (some ⟨10, []⟩) 3 7 true (Except.ok true)).1
    ⟨10, []⟩ rfl rfl rfl
  simpa using h

/-- Claim C7: when the candidate passes structural evaluation but the
offline consistency check fails, `evaluate` returns a never-resolving
future, and the chain-level evaluation result does not influence that
outcome. -/
theorem evaluate_abstains_on_inconsistent_offline (p : Proposal)
    (now_ts minimum_timestamp : Nat) (chain chain2 : Except Unit Bool) :
    evaluate (some p) now_ts minimum_timestamp false chain = EvalOutcome.never ∧
    evaluate (some p) now_ts minimum_timestamp false chain =
      evaluate (some p) now_ts minimum_timestamp false chain2 :=
  ⟨rfl, rfl⟩

/-- Claim C6: the `offline_indices` that `propose` places into the inherent
data are empty whenever more than `MAX_VOTE_OFFLINE_SECONDS = 60` seconds
have elapsed since the proposer's construction, and otherwise are exactly
`offline.reports(validators)` over the validator set captured at
construction. -/
theorem propose_offline_indices_cutoff (minimum_timestamp now_ts elapsed_ns : Nat)
    (reports : List AccountId → List Nat) (validators : List AccountId) :
    (elapsed_ns > MAX_VOTE_OFFLINE_NANOS →
      (propose_inherent_data minimum_timestamp now_ts elapsed_ns reports
        validators).offline_indices = []) ∧
    (elapsed_ns ≤ MAX_VOTE_OFFLINE_NANOS →
      (propose_inherent_data minimum_timestamp now_ts elapsed_ns reports
        validators).offline_indices = reports validators) := by
  constructor
  · intro h
    simp [propose_inherent_data, h]
  · intro h
    have h2 : ¬ elapsed_ns > MAX_VOTE_OFFLINE_NANOS := by omega
    simp [propose_inherent_data, h2]

/-- Witness for C6 at 61 and 60 elapsed seconds. -/
theorem propose_offline_indices_cutoff_witness :
    (propose_inherent_data 0 0 (61 * NANOS_PER_SEC) (fun _ => [0]) [7]).offline_indices
      = [] ∧
    (propose_inherent_data 0 0 (60 * NANOS_PER_SEC) (fun _ => [0]) [7]).offline_indices
      = [0] := by
  constructor
  · exact (propose_offline_indices_cutoff 0 0 (61 * NANOS_PER_SEC) (fun _ => [0]) [7]).1
      (by decide)
  · exact (propose_offline_indices_cutoff 0 0 (60 * NANOS_PER_SEC) (fun _ => [0]) [7]).2
      (by decide)

/-- Counterexample to C4 as stated: when the nonce API errors the cached
expected nonce becomes `u64::MAX`, and a transaction with index 0 — far from
classifying as `Future` as the claim says — classifies as `Stale` (`Future`
requires an index strictly greater than the expected nonce, which no `u64`
exceeds). -/
theorem is_ready_api_error_counterexample :
    (is_ready (fun _ => Except.error ()) [] ⟨[], 0, 0, 0⟩).1 = Readiness.stale ∧
    (is_ready (fun _ => Except.error ()) [] ⟨[], 0, 0, 0⟩).1 ≠ Readiness.future := by
  exact ⟨rfl, by decide⟩

/-- Claim C4 (amended): `is_ready` classifies a verified transaction against
the cached per-sender expected nonce as `Ready` iff `index = next_nonce`,
`Future` iff `index > next_nonce`, `Stale` iff `index < next_nonce`; the
cache is seeded from `api.index(at, sender)`, and if that call errors the
expected nonce is the maximum `u64` value — so that the sender's
transactions with index below `u64::MAX` classify as `Stale` (one with index
exactly `u64::MAX` classifies `Ready`), never as `Future`; after the
classification the cached nonce is incremented by 1 with saturation. -/
theorem is_ready_classification (api_index : AccountId → Except Unit Nat)
    (known : KnownNonces) (xt : VerifiedTransaction) :
    ((is_ready api_index known xt).1 = Readiness.ready ↔
      xt.index = expected_nonce api_index known xt.sender) ∧
    ((is_ready api_index known xt).1 = Readiness.future ↔
      expected_nonce api_index known xt.sender < xt.index) ∧
    ((is_ready api_index known xt).1 = Readiness.stale ↔
      xt.index < expected_nonce api_index known xt.sender) ∧
    (∀ n, nonce_lookup known xt.sender = none → api_index xt.sender = Except.ok n →
      expected_nonce api_index known xt.sender = n) ∧
    (nonce_lookup known xt.sender = none → api_index xt.sender = Except.error () →
      expected_nonce api_index known xt.sender = U64_MAX ∧
      (xt.index < U64_MAX → (is_ready api_index known xt).1 = Readiness.stale) ∧
      (xt.index = U64_MAX → (is_ready api_index known xt).1 = Readiness.ready)) ∧
    nonce_lookup (is_ready api_index known xt).2 xt.sender =
      some (saturating_add_u64 (expected_nonce api_index known xt.sender) 1) := by
  have e1 : (is_ready api_index known xt).1 =
      (if expected_nonce api_index known xt.sender < xt.index then Readiness.future
       else if xt.index = expected_nonce api_index known xt.sender then Readiness.ready
       else Readiness.stale) := rfl
  have e2 : (is_ready api_index known xt).2 =
      nonce_insert known xt.sender
        (saturating_add_u64 (expected_nonce api_index known xt.sender) 1) := rfl
  refine ⟨?_, ?_, ?_, ?_, ?_, ?_⟩
  · rw [e1]
    by_cases h1 : expected_nonce api_index known xt.sender < xt.index
    · simp only [if_pos h1]
      constructor
      · intro h
        exact absurd h (by decide)
      · intro h
        omega
    · by_cases h2 : xt.index = expected_nonce api_index known xt.sender
      · simp [if_neg h1, if_pos h2, h2]
      · simp only [if_neg h1, if_neg h2]
        constructor
        · intro h
          exact absurd h (by decide)
        · intro h
          exact absurd h h2
  · rw [e1]
    by_cases h1 : expected_nonce api_index known xt.sender < xt.index
    · simp [if_pos h1, h1]
    · by_cases h2 : xt.index = expected_nonce api_index known xt.sender
      · simp only [if_neg h1, if_pos h2]
        constructor
        · intro h
          exact absurd h (by decide)
        · intro h
          omega
      · simp only [if_neg h1, if_neg h2]
        constructor
        · intro h
          exact absurd h (by decide)
        · intro h
          omega
  · rw [e1]
    by_cases h1 : expected_nonce api_index known xt.sender < xt.index
    · simp only [if_pos h1]
      constructor
      · intro h
        exact absurd h (by decide)
      · intro h
        omega
    · by_cases h2 : xt.index = expected_nonce api_index known xt.sender
      · simp only [if_neg h1, if_pos h2]
        constructor
        · intro h
          exact absurd h (by decide)
        · intro h
          omega
      · simp only [if_neg h1, if_neg h2]
        constructor
        · intro h
          omega
        · intro h
          trivial
  · intro n hnone hok
    simp [expected_nonce, hnone, hok]
  · intro hnone herr
    have hmax : expected_nonce api_index known xt.sender = U64_MAX := by
      simp [expected_nonce, hnone, herr]
    refine ⟨hmax, ?_, ?_⟩
    · intro hlt
      rw [e1, hmax]
      have h1 : ¬ U64_MAX < xt.index := by omega
      have h2 : ¬ xt.index = U64_MAX := by omega
      simp [if_neg h1, if_neg h2]
    · intro heq
      rw [e1, hmax]
      have h1 : ¬ U64_MAX < xt.index := by omega
      simp [if_neg h1, heq]
  · rw [e2, nonce_lookup_insert]

/-- Witness for C4 (amended): a transaction at the chain nonce is `Ready`,
and a low-index transaction of a sender whose nonce lookup errors is
`Stale`. -/
theorem is_ready_classification_witness :
    (is_ready (fun _ => Except.ok 5) [] ⟨[], 0, 5, 10⟩).1 = Readiness.ready ∧
    expected_nonce (fun _ => Except.error ()) [] 0 = U64_MAX ∧
    (is_ready (fun _ => Except.error ()) [] ⟨[], 0, 3, 0⟩).1 = Readiness.stale := by
  refine ⟨?_, ?_, ?_⟩
  · exact ((is_ready_classification (fun _ => Except.ok 5) [] ⟨[], 0, 5, 10⟩).1).mpr rfl
  · exact (((is_ready_classification (fun _ => Except.error ()) []
      ⟨[], 0, 3, 0⟩).2.2.2.2).1 rfl rfl).1
  · exact ((((is_ready_classification (fun _ => Except.error ()) []
      ⟨[], 0, 3, 0⟩).2.2.2.2).1 rfl rfl).2.1 (by decide))

/-- Claim C5: `verify_transaction` returns `InvalidExtrinsicFormat` when the
bytes fail to decode, `IsInherent` when the decoded extrinsic is unsigned,
`TooLarge(actual, MAX_TRANSACTION_SIZE)` when the encoded length exceeds
4 MiB, and otherwise — when the signature check of `check_with` succeeds —
a `VerifiedTransaction` whose hash is the BLAKE2-256 digest of the encoding
and whose `encoded_size` is the encoding's byte length. -/
theorem verify_transaction_spec (decode : List Nat → Option UncheckedExtrinsic)
    (blake2_256 : List Nat → Hash) (sigOk : UncheckedExtrinsic → AccountId → Bool)
    (encoded : List Nat) :
    (decode encoded = none →
      verify_transaction decode blake2_256 sigOk encoded =
        Except.error VerifyError.invalidExtrinsicFormat) ∧
    (∀ uxt, decode encoded = some uxt → uxt.is_signed = false →
      verify_transaction decode blake2_256 sigOk encoded =
        Except.error (VerifyError.isInherent uxt)) ∧
    (∀ uxt, decode encoded = some uxt → uxt.is_signed = true →
      encoded.length > MAX_TRANSACTION_SIZE →
      verify_transaction decode blake2_256 sigOk encoded =
        Except.error (VerifyError.tooLarge encoded.length MAX_TRANSACTION_SIZE)) ∧
    (∀ uxt c sender, decode encoded = some uxt → uxt.is_signed = true →
      encoded.length ≤ MAX_TRANSACTION_SIZE →
      check_with sigOk address_lookup uxt = Except.ok c → c.signed = some sender →
      verify_transaction decode blake2_256 sigOk encoded =
        Except.ok ⟨blake2_256 encoded, sender, c.index, encoded.length⟩) := by
  refine ⟨?_, ?_, ?_, ?_⟩
  · intro h
    simp [verify_transaction, h]
  · intro uxt h hsig
    simp [verify_transaction, h, hsig]
  · intro uxt h hsig hlen
    simp [verify_transaction, h, hsig, hlen]
  · intro uxt c sender h hsig hlen hcheck hsigned
    have h2 : ¬ encoded.length > MAX_TRANSACTION_SIZE := by omega
    simp [verify_transaction, h, hsig, h2, hcheck, hsigned]

/-- Witness for C5: a two-byte signed extrinsic from account 7 with nonce 3
verifies to a record with hash `blake2` of the bytes and size 2 (the hash
function instantiated as the identity). -/
theorem verify_transaction_spec_witness :
    verify_transaction (fun _ => some ⟨some (RawAddress.id 7, 0), 3, 0⟩)
      (fun e => e) (fun _ _ => true) [1, 2] =
      Except.ok ⟨[1, 2], 7, 3, 2⟩ := by
  have h := (verify_transaction_spec (fun _ => some ⟨some (RawAddress.id 7, 0), 3, 0⟩)
      (fun e => e) (fun _ _ => true) [1, 2]).2.2.2
      ⟨some (RawAddress.id 7, 0), 3, 0⟩ ⟨some 7, 3, 0⟩ 7 rfl rfl (by decide) rfl rfl
  simpa using h

/-- Claim C10: `verify_transaction` rejects every signed extrinsic whose
sender address is `RawAddress::Index` — within the size limit it fails with
the error message "Index based addresses are not supported" — and only
extrinsics addressed by `RawAddress::Id` can ever become verified
transactions. -/
theorem verify_transaction_rejects_index_address
    (decode : List Nat → Option UncheckedExtrinsic)
    (blake2_256 : List Nat → Hash) (sigOk : UncheckedExtrinsic → AccountId → Bool)
    (encoded : List Nat) :
    (∀ uxt i s, decode encoded = some uxt →
      uxt.signature = some (RawAddress.index i, s) →
      encoded.length ≤ MAX_TRANSACTION_SIZE →
      verify_transaction decode blake2_256 sigOk encoded =
        Except.error (VerifyError.other ("Index based addresses are not supported"))) ∧
    (∀ vt, verify_transaction decode blake2_256 sigOk encoded = Except.ok vt →
      ∃ uxt a s, decode encoded = some uxt ∧
        uxt.signature = some (RawAddress.id a, s)) := by
  constructor
  · intro uxt i s h hsig hlen
    have hs : uxt.is_signed = true := by simp [UncheckedExtrinsic.is_signed, hsig]
    have h2 : ¬ encoded.length > MAX_TRANSACTION_SIZE := by omega
    simp [verify_transaction, h, hs, h2, check_with, hsig, address_lookup]
  · intro vt h
    cases hd : decode encoded with
    | none => simp [verify_transaction, hd] at h
    | some uxt =>
      cases hsig : uxt.signature with
      | none =>
        have hs : uxt.is_signed = false := by simp [UncheckedExtrinsic.is_signed, hsig]
        simp [verify_transaction, hd, hs] at h
      | some pair =>
        obtain ⟨addr, s⟩ := pair
        cases addr with
        | id a => exact ⟨uxt, a, s, rfl, hsig⟩
        | index i =>
          have hs : uxt.is_signed = true := by simp [UncheckedExtrinsic.is_signed, hsig]
          by_cases hlen : encoded.length > MAX_TRANSACTION_SIZE
          · simp [verify_transaction, hd, hs, hlen] at h
          · simp [verify_transaction, hd, hs, hlen, check_with, hsig,
              address_lookup] at h

/-- Witness for C10: a signed extrinsic addressed by index 0 is rejected
with the unsupported-address error. -/
theorem verify_transaction_rejects_index_address_witness :
    verify_transaction (fun _ => some ⟨some (RawAddress.index 0, 0), 0, 0⟩)
      (fun e => e) (fun _ _ => true) [] =
      Except.error (VerifyError.other ("Index based addresses are not supported")) := by
  exact (verify_transaction_rejects_index_address
      (fun _ => some ⟨some (RawAddress.index 0, 0), 0, 0⟩)
      (fun e => e) (fun _ _ => true) []).1
    ⟨some (RawAddress.index 0, 0), 0, 0⟩ 0 0 rfl rfl (by decide)

end Substrate
